import Mathlib

/-!
Shallow embedding of the day-unique id generator
(`src/generator/day_unique_id.go`, package `generator`).

Modelling decisions:
* Go `int64` values are modelled as `Int`; the only arithmetic the code
  performs on them is `+1` (cursor increment) and `+50` (low-watermark
  check), which we route through `wrap64` so that 64-bit two's-complement
  overflow is represented faithfully.
* `time.Time` is modelled by `GoDate` (year/month/day); the code only ever
  inspects `.Day()` (day of month) and formats dates as `"20060102"`
  (i.e. YYYYMMDD), both of which are reproduced below.  The zero value of
  Go's `time.Time` is January 1 of year 1.
* The struct fields `reqNumbersCaller`, `rander`, `gettingIdRangeCounter`
  and `logs` are respectively modelled as an explicit per-call function
  argument (`caller`), an explicit random draw (`randNum`, the value of
  `rander.Intn(10000000000)`), an explicit counter argument (`curCounter`,
  the value read from the atomic counter after the increment at the top of
  `getNewIdRange`), and dropped (logging is purely observational).
* The Go field `prefix` is named `pfx` here.
* Errors (Go `error`) are modelled by `Except String`.
-/

namespace Generator

/-- Bound of 64-bit two's-complement integers: `-2^63`. -/
def i64min : Int := -(2 ^ 63)

/-- Bound of 64-bit two's-complement integers: `2^63 - 1`. -/
def i64max : Int := 2 ^ 63 - 1

/-- Wrap an integer into 64-bit two's-complement range, as Go `int64`
arithmetic does on overflow. -/
def wrap64 (x : Int) : Int := (x + 2 ^ 63) % 2 ^ 64 - 2 ^ 63

theorem wrap64_eq_self {x : Int} (hlo : -(2 ^ 63) ≤ x) (hhi : x < 2 ^ 63) :
    wrap64 x = x := by
  unfold wrap64
  have h1 : (0 : Int) ≤ x + 2 ^ 63 := by omega
  have h2 : x + 2 ^ 63 < 2 ^ 64 := by omega
  rw [Int.emod_eq_of_lt h1 h2]
  omega

/-- Calendar date, standing in for Go `time.Time`; the code only uses the
day-of-month component and the `"20060102"` format. -/
structure GoDate where
  year : Nat
  month : Nat
  day : Nat
deriving DecidableEq

/-- Zero value of Go `time.Time`: January 1, year 1. -/
def zeroDate : GoDate := ⟨1, 1, 1⟩

/-- Character for a single decimal digit. -/
def digitChar (d : Nat) : Char := Char.ofNat (48 + d)

/-- Fuel-driven most-significant-first decimal rendering, mirroring Go
`fmt` `%d` on a nonnegative value.  The fuel bounds the number of digits;
`20` is enough for every `int64` (at most 19 decimal digits). -/
def natDecCharsGo : Nat → Nat → List Char → List Char
  | 0, _, acc => acc
  | fuel + 1, n, acc =>
      if n < 10 then digitChar n :: acc
      else natDecCharsGo fuel (n / 10) (digitChar (n % 10) :: acc)

/-- Decimal rendering of a natural number, mirroring Go `fmt` `%d`. -/
def natDecChars (n : Nat) : List Char := natDecCharsGo 20 n []

/-- Left-pad a character list with `'0'` to the given width, as Go `fmt`
zero padding does. -/
def padZerosTo (w : Nat) (cs : List Char) : List Char :=
  List.replicate (w - cs.length) '0' ++ cs

/-- Go `fmt.Sprintf("%06d", currentId)` (day_unique_id.go line 160):
zero-pad to width 6; for a negative value the sign precedes the zeros. -/
def sprintf06d (n : Int) : List Char :=
  if n < 0 then '-' :: padZerosTo 5 (natDecChars n.natAbs)
  else padZerosTo 6 (natDecChars n.toNat)

/-- Go `currentTime.Format("20060102")`: YYYYMMDD with zero padding. -/
def formatDate (d : GoDate) : String :=
  String.mk (padZerosTo 4 (natDecChars d.year) ++
    padZerosTo 2 (natDecChars d.month) ++ padZerosTo 2 (natDecChars d.day))

/-- The digit-to-letter table `keyMap` (day_unique_id.go lines 57-68),
as a function returning `none` for a byte with no entry. -/
def keyMapFn (c : Char) : Option Char :=
  if c = '0' then some 'A'
  else if c = '1' then some 'C'
  else if c = '2' then some 'E'
  else if c = '3' then some 'F'
  else if c = '4' then some 'H'
  else if c = '5' then some 'N'
  else if c = '6' then some 'Q'
  else if c = '7' then some 'R'
  else if c = '8' then some 'S'
  else if c = '9' then some 'U'
  else none

/-- The range of the `keyMap` table, in digit order. -/
def tableVals : List Char := ['A', 'C', 'E', 'F', 'H', 'N', 'Q', 'R', 'S', 'U']

/-- The encoding loop of `GenerateKey` (lines 164-174): map every character
through `keyMapFn`, failing on the first character with no entry. -/
def encodeChars : List Char → Option (List Char)
  | [] => some []
  | c :: cs =>
      match keyMapFn c with
      | none => none
      | some d =>
          match encodeChars cs with
          | none => none
          | some ds => some (d :: ds)

/-- Inverse of the digit-to-letter table (the "inverse digit map" used to
decode a suffix back to its decimal rendering). -/
def invKeyMapFn (c : Char) : Option Char :=
  if c = 'A' then some '0'
  else if c = 'C' then some '1'
  else if c = 'E' then some '2'
  else if c = 'F' then some '3'
  else if c = 'H' then some '4'
  else if c = 'N' then some '5'
  else if c = 'Q' then some '6'
  else if c = 'R' then some '7'
  else if c = 'S' then some '8'
  else if c = 'U' then some '9'
  else none

/-- Decode a suffix through the inverse digit map. -/
def decodeChars : List Char → Option (List Char)
  | [] => some []
  | c :: cs =>
      match invKeyMapFn c with
      | none => none
      | some d =>
          match decodeChars cs with
          | none => none
          | some ds => some (d :: ds)

/-- Fuel-driven little-endian base-26 letter rendering, mirroring the loop
`for ; num > 0; num = num / 26` in `randId` (lines 237-242).  Fuel `16` is
enough for the draw `rander.Intn(10000000000)` (at most 8 base-26 digits). -/
def rand26Go : Nat → Nat → List Char
  | 0, _ => []
  | fuel + 1, num =>
      if num = 0 then []
      else Char.ofNat (num % 26 + 65) :: rand26Go fuel (num / 26)

/-- The random-fallback suffix generator `randId` (lines 219-250), with the
random draw `num` (the value of `rander.Intn(10000000000)`) made explicit.
The first byte is always the marker `'Y'`; then up to three bytes derived
from the host key (each shifted by 17 and truncated to a byte, as
`uint8(ch + 17)` does), padded with `'A'` to three; then the base-26
rendering of `num`, padded with `'A'` to eight. -/
def randId (num : Nat) (hostKey : String) : String :=
  let hostPart := (hostKey.toList.take 3).map
    (fun ch => Char.ofNat ((ch.toNat + 17) % 256))
  let hostPad := List.replicate (3 - hostKey.length) 'A'
  let randSuffix := rand26Go 16 num
  let randPad := List.replicate (8 - randSuffix.length) 'A'
  String.mk ('Y' :: (hostPart ++ hostPad ++ (randSuffix ++ randPad)))

/-- Decidable equality for `Except`, used to evaluate results on concrete
inputs. -/
instance {ε α : Type} [DecidableEq ε] [DecidableEq α] :
    DecidableEq (Except ε α) := fun a b =>
  match a, b with
  | Except.error e, Except.error f =>
      if h : e = f then Decidable.isTrue (by cases h; rfl)
      else Decidable.isFalse (fun hc => h (by cases hc; rfl))
  | Except.error _, Except.ok _ => Decidable.isFalse (fun hc => Except.noConfusion hc)
  | Except.ok _, Except.error _ => Decidable.isFalse (fun hc => Except.noConfusion hc)
  | Except.ok x, Except.ok y =>
      if h : x = y then Decidable.isTrue (by cases h; rfl)
      else Decidable.isFalse (fun hc => h (by cases hc; rfl))

/-- The request sent to the sequence authority (`ApplyReq`, lines 20-25). -/
structure ApplyReq where
  appName : String
  bizType : String
  day : String
  step : Int
deriving DecidableEq

/-- The range granted by the sequence authority (`NewRangeResp`,
lines 27-30). -/
structure NewRangeResp where
  rangeStart : Int
  rangeEnd : Int
deriving DecidableEq

/-- The mutable cache state (`RangeUsageInfoStruct`, lines 32-46).  The
fields `usageM` (the lock), `gettingIdRangeCounter`, `reqNumbersCaller`,
`logs` and `rander` are modelled as explicit per-call arguments, see the
file header.  The Go field `prefix` is named `pfx`. -/
structure RangeUsageInfoStruct where
  currentMaxId : Int
  currentRangeEnd : Int
  applyDate : GoDate
  appName : String
  bizType : String
  pfx : String
  hostKey : String
deriving DecidableEq

/-- The step constant `constIncrementStep = 10000` (line 16). -/
def constIncrementStep : Int := 10000

/-- The low-watermark constant `LeastAvailableIdNum = 50` (line 17). -/
def LeastAvailableIdNum : Int := 50

/-- The constructor `New` (lines 70-82): Go zero values for the segment
fields (zero cursor and bound, zero-value date, empty `appName`), and
`bizType` set to the same string as `pfx`. -/
def New (pfx0 : String) (hostKey : String) : RangeUsageInfoStruct :=
  { currentMaxId := 0
    currentRangeEnd := 0
    applyDate := zeroDate
    appName := ""
    bizType := pfx0
    pfx := pfx0
    hostKey := hostKey }

/-- The first-use binding of `appName` (lines 86-89): set only while the
stored name is still empty, never changed afterwards. -/
def bindAppName (usage : RangeUsageInfoStruct) (applicationName : String) :
    RangeUsageInfoStruct :=
  if usage.appName = "" then { usage with appName := applicationName }
  else usage

/-- The renewal request built on every call (lines 95-100). -/
def builtReq (usage : RangeUsageInfoStruct) (d : GoDate) : ApplyReq :=
  { appName := usage.appName
    bizType := usage.bizType
    day := formatDate d
    step := constIncrementStep }

/-- Computation of `finalPrefix` (lines 102-105). -/
def finalPfxOf (usage : RangeUsageInfoStruct) (appendPfx : String) : String :=
  if appendPfx = "" then usage.pfx else usage.pfx ++ "-" ++ appendPfx

/-- The encoding routine `GenerateKey` (lines 159-180): zero-pad the served
integer to six digits with `"%06d"`, map every character through the
digit-to-letter table, and glue `finalPrefix`, the date and the suffix
with the `"%s-%s%s"` format. -/
def GenerateKey (currentId : Int) (finalPfx todayFormat : String) :
    Except String String :=
  match encodeChars (sprintf06d currentId) with
  | none => Except.error "id map error"
  | some suffix =>
      Except.ok (finalPfx ++ "-" ++ todayFormat ++ String.mk suffix)

/-- The segment replacement `replaceRange` (lines 265-279): if the cached
date has the same day-of-month as the usage day and the cached bound is at
least the incoming range end, the incoming range is considered stale and
the existing cursor is merely incremented; otherwise the incoming range is
installed wholesale.  Returns the served integer and the new state. -/
def replaceRange (usage : RangeUsageInfoStruct) (rangeStart rangeEnd : Int)
    (usageDay : GoDate) : Int × RangeUsageInfoStruct :=
  if usage.applyDate.day = usageDay.day ∧ usage.currentRangeEnd ≥ rangeEnd then
    let m := wrap64 (usage.currentMaxId + 1)
    (m, { usage with currentMaxId := m })
  else
    (rangeStart,
     { usage with
        currentMaxId := rangeStart
        currentRangeEnd := rangeEnd
        applyDate := usageDay })

/-- The fast-path increment `incrementAndGet` (lines 281-286). -/
def incrementAndGet (usage : RangeUsageInfoStruct) :
    Int × RangeUsageInfoStruct :=
  let m := wrap64 (usage.currentMaxId + 1)
  (m, { usage with currentMaxId := m })

/-- The renewal admission `getNewIdRange` (lines 288-310), with the counter
value read after the atomic increment passed in as `curCounter`: when more
than two attempts are in flight the request is downgraded to step 1 and
flagged single-use, and the authority `caller` is invoked on the resulting
request. -/
def getNewIdRange (curCounter : Int)
    (caller : ApplyReq → Except String NewRangeResp) (req : ApplyReq) :
    Except String (NewRangeResp × Bool) :=
  let bUseOnce := decide (curCounter > 2)
  let req' := if curCounter > 2 then { req with step := 1 } else req
  match caller req' with
  | Except.error e => Except.error e
  | Except.ok resp => Except.ok (resp, bUseOnce)

/-- The common tail of `GenerateIdWithAppendPrefix` (lines 146-155): if the
served integer is zero or exceeds the (possibly updated) bound, fall back
to a random identifier; otherwise encode it. -/
def finishServe (usage : RangeUsageInfoStruct) (currentId : Int)
    (finalPfx todayFormat : String) (randNum : Nat) :
    Except String String × RangeUsageInfoStruct :=
  if currentId = 0 ∨ currentId > usage.currentRangeEnd then
    (Except.ok (finalPfx ++ "-" ++ todayFormat ++ randId randNum usage.hostKey),
     usage)
  else
    (GenerateKey currentId finalPfx todayFormat, usage)

/-- The renewal block duplicated at lines 109-123 and 124-139 of
`GenerateIdWithAppendPrefix`, followed by the common tail: request a range;
on error keep the state and fall through with `currentId = 0`; on a
single-use grant return the encoded `rangeStart` directly without touching
the state; on a full grant run `replaceRange` and fall through with its
served integer. -/
def renewalServe (usage : RangeUsageInfoStruct) (req : ApplyReq)
    (finalPfx todayFormat : String) (currentDate : GoDate) (curCounter : Int)
    (caller : ApplyReq → Except String NewRangeResp) (randNum : Nat) :
    Except String String × RangeUsageInfoStruct :=
  match getNewIdRange curCounter caller req with
  | Except.error _ => finishServe usage 0 finalPfx todayFormat randNum
  | Except.ok (resp, true) =>
      (GenerateKey resp.rangeStart finalPfx todayFormat, usage)
  | Except.ok (resp, false) =>
      let p := replaceRange usage resp.rangeStart resp.rangeEnd currentDate
      finishServe p.2 p.1 finalPfx todayFormat randNum

/-- The public operation `GenerateIdWithAppendPrefix` (lines 84-157): bind
`appName` on first use, build the request, then either renew (when the
day-of-month changed, or when the segment is within the low watermark of
its bound) or serve the next integer from the cached segment. -/
def GenerateIdWithAppendPrefix (usage0 : RangeUsageInfoStruct)
    (applicationName appendPfx : String) (currentDate : GoDate)
    (curCounter : Int) (caller : ApplyReq → Except String NewRangeResp)
    (randNum : Nat) : Except String String × RangeUsageInfoStruct :=
  let usage := bindAppName usage0 applicationName
  let todayFormat := formatDate currentDate
  let req := builtReq usage currentDate
  let finalPfx := finalPfxOf usage appendPfx
  if currentDate.day ≠ usage.applyDate.day then
    renewalServe usage req finalPfx todayFormat currentDate curCounter caller
      randNum
  else if wrap64 (usage.currentMaxId + LeastAvailableIdNum) >
      usage.currentRangeEnd then
    renewalServe usage req finalPfx todayFormat currentDate curCounter caller
      randNum
  else
    let p := incrementAndGet usage
    finishServe p.2 p.1 finalPfx todayFormat randNum

/-- The wrapper `GenerateId` (lines 182-184). -/
def GenerateId (usage0 : RangeUsageInfoStruct) (applicationName : String)
    (currentDate : GoDate) (curCounter : Int)
    (caller : ApplyReq → Except String NewRangeResp) (randNum : Nat) :
    Except String String × RangeUsageInfoStruct :=
  GenerateIdWithAppendPrefix usage0 applicationName "" currentDate curCounter
    caller randNum

/-- Iterated calls with a fixed application name, date, counter, caller and
random draw; returns the outputs in order together with the final state. -/
def runCalls (app : String) (d : GoDate) (curCounter : Int)
    (caller : ApplyReq → Except String NewRangeResp) (randNum : Nat) :
    Nat → RangeUsageInfoStruct →
      List (Except String String) × RangeUsageInfoStruct
  | 0, s => ([], s)
  | n + 1, s =>
      let p := GenerateIdWithAppendPrefix s app "" d curCounter caller randNum
      let rest := runCalls app d curCounter caller randNum n p.2
      (p.1 :: rest.1, rest.2)

/-- Iterated calls with varying application names, folding the state. -/
def runApps (d : GoDate) (curCounter : Int)
    (caller : ApplyReq → Except String NewRangeResp) (randNum : Nat) :
    List String → RangeUsageInfoStruct → RangeUsageInfoStruct
  | [], s => s
  | a :: rest, s =>
      runApps d curCounter caller randNum rest
        (GenerateIdWithAppendPrefix s a "" d curCounter caller randNum).2

/-! Field-preservation lemmas for the state operations. -/

theorem bindAppName_fields (s : RangeUsageInfoStruct) (a : String) :
    (bindAppName s a).currentMaxId = s.currentMaxId ∧
    (bindAppName s a).currentRangeEnd = s.currentRangeEnd ∧
    (bindAppName s a).applyDate = s.applyDate ∧
    (bindAppName s a).bizType = s.bizType ∧
    (bindAppName s a).pfx = s.pfx ∧
    (bindAppName s a).hostKey = s.hostKey := by
  unfold bindAppName
  split <;> exact ⟨rfl, rfl, rfl, rfl, rfl, rfl⟩

theorem replaceRange_fields (s : RangeUsageInfoStruct) (a b : Int)
    (d : GoDate) :
    ((replaceRange s a b d).2.appName = s.appName ∧
     (replaceRange s a b d).2.bizType = s.bizType ∧
     (replaceRange s a b d).2.pfx = s.pfx ∧
     (replaceRange s a b d).2.hostKey = s.hostKey) := by
  unfold replaceRange
  split <;> exact ⟨rfl, rfl, rfl, rfl⟩

theorem finishServe_state (u : RangeUsageInfoStruct) (cid : Int)
    (p t : String) (rn : Nat) : (finishServe u cid p t rn).2 = u := by
  unfold finishServe
  split <;> rfl

theorem GenerateKey_error_eq (n : Int) (p t : String) (e : String)
    (h : GenerateKey n p t = Except.error e) : e = "id map error" := by
  unfold GenerateKey at h
  cases henc : encodeChars (sprintf06d n) with
  | none => rw [henc] at h; cases h; rfl
  | some s => rw [henc] at h; cases h

theorem finishServe_error_eq (u : RangeUsageInfoStruct) (cid : Int)
    (p t : String) (rn : Nat) (e : String)
    (h : (finishServe u cid p t rn).1 = Except.error e) : e = "id map error" := by
  unfold finishServe at h
  split at h
  · cases h
  · exact GenerateKey_error_eq _ _ _ _ h

theorem renewalServe_error_eq (u : RangeUsageInfoStruct) (req : ApplyReq)
    (p t : String) (d : GoDate) (c : Int)
    (ca : ApplyReq → Except String NewRangeResp) (rn : Nat) (e : String)
    (h : (renewalServe u req p t d c ca rn).1 = Except.error e) :
    e = "id map error" := by
  unfold renewalServe at h
  cases hg : getNewIdRange c ca req with
  | error e' => rw [hg] at h; exact finishServe_error_eq _ _ _ _ _ _ h
  | ok pr =>
      rw [hg] at h
      rcases pr with ⟨resp, b⟩
      cases b with
      | true => exact GenerateKey_error_eq _ _ _ _ h
      | false => exact finishServe_error_eq _ _ _ _ _ _ h

theorem finalPfxOf_empty (u : RangeUsageInfoStruct) : finalPfxOf u "" = u.pfx := by
  unfold finalPfxOf
  rw [if_pos rfl]

theorem finishServe_fallback (u : RangeUsageInfoStruct) (cid : Int)
    (p t : String) (rn : Nat) (h : cid = 0 ∨ cid > u.currentRangeEnd) :
    finishServe u cid p t rn =
      (Except.ok (p ++ "-" ++ t ++ randId rn u.hostKey), u) := by
  unfold finishServe
  rw [if_pos h]

theorem finishServe_serve (u : RangeUsageInfoStruct) (cid : Int)
    (p t : String) (rn : Nat) (h : ¬(cid = 0 ∨ cid > u.currentRangeEnd)) :
    finishServe u cid p t rn = (GenerateKey cid p t, u) := by
  unfold finishServe
  rw [if_neg h]

theorem replaceRange_install (u : RangeUsageInfoStruct) (rs re : Int)
    (d : GoDate) (h : ¬(u.applyDate.day = d.day ∧ u.currentRangeEnd ≥ re)) :
    replaceRange u rs re d =
      (rs,
       { u with currentMaxId := rs, currentRangeEnd := re, applyDate := d })
      := by
  unfold replaceRange
  rw [if_neg h]

theorem replaceRange_stale (u : RangeUsageInfoStruct) (rs re : Int)
    (d : GoDate) (h : u.applyDate.day = d.day ∧ u.currentRangeEnd ≥ re) :
    replaceRange u rs re d =
      (wrap64 (u.currentMaxId + 1),
       { u with currentMaxId := wrap64 (u.currentMaxId + 1) }) := by
  unfold replaceRange
  rw [if_pos h]

theorem getNewIdRange_full (c : Int)
    (ca : ApplyReq → Except String NewRangeResp) (req : ApplyReq)
    (h : ¬ c > 2) :
    getNewIdRange c ca req = Except.map (fun r => (r, false)) (ca req) := by
  unfold getNewIdRange
  rw [if_neg h]
  simp only [decide_eq_false h]
  cases ca req <;> rfl

theorem getNewIdRange_once (c : Int)
    (ca : ApplyReq → Except String NewRangeResp) (req : ApplyReq)
    (h : c > 2) :
    getNewIdRange c ca req =
      Except.map (fun r => (r, true)) (ca { req with step := 1 }) := by
  unfold getNewIdRange
  rw [if_pos h]
  simp only [decide_eq_true_eq, h, decide_eq_true]
  cases ca { req with step := 1 } <;> rfl

theorem renewalServe_error (u : RangeUsageInfoStruct) (req : ApplyReq)
    (p t : String) (d : GoDate) (c : Int)
    (ca : ApplyReq → Except String NewRangeResp) (rn : Nat) (e : String)
    (hg : getNewIdRange c ca req = Except.error e) :
    renewalServe u req p t d c ca rn =
      (Except.ok (p ++ "-" ++ t ++ randId rn u.hostKey), u) := by
  unfold renewalServe
  rw [hg]
  exact finishServe_fallback _ _ _ _ _ (Or.inl rfl)

theorem renewalServe_once (u : RangeUsageInfoStruct) (req : ApplyReq)
    (p t : String) (d : GoDate) (c : Int)
    (ca : ApplyReq → Except String NewRangeResp) (rn : Nat)
    (g : NewRangeResp) (hg : getNewIdRange c ca req = Except.ok (g, true)) :
    renewalServe u req p t d c ca rn = (GenerateKey g.rangeStart p t, u) := by
  unfold renewalServe
  rw [hg]

theorem renewalServe_full (u : RangeUsageInfoStruct) (req : ApplyReq)
    (p t : String) (d : GoDate) (c : Int)
    (ca : ApplyReq → Except String NewRangeResp) (rn : Nat)
    (g : NewRangeResp) (hg : getNewIdRange c ca req = Except.ok (g, false)) :
    renewalServe u req p t d c ca rn =
      finishServe (replaceRange u g.rangeStart g.rangeEnd d).2
        (replaceRange u g.rangeStart g.rangeEnd d).1 p t rn := by
  unfold renewalServe
  rw [hg]

theorem GIWAP_renew (usage0 : RangeUsageInfoStruct) (app apfx : String)
    (d : GoDate) (c : Int) (ca : ApplyReq → Except String NewRangeResp)
    (rn : Nat)
    (h : d.day ≠ (bindAppName usage0 app).applyDate.day ∨
      wrap64 ((bindAppName usage0 app).currentMaxId + LeastAvailableIdNum) >
        (bindAppName usage0 app).currentRangeEnd) :
    GenerateIdWithAppendPrefix usage0 app apfx d c ca rn =
      renewalServe (bindAppName usage0 app)
        (builtReq (bindAppName usage0 app) d)
        (finalPfxOf (bindAppName usage0 app) apfx) (formatDate d) d c ca
        rn := by
  simp only [GenerateIdWithAppendPrefix]
  by_cases h1 : d.day ≠ (bindAppName usage0 app).applyDate.day
  · rw [if_pos h1]
  · rw [if_neg h1, if_pos (h.resolve_left h1)]

theorem GIWAP_fast (usage0 : RangeUsageInfoStruct) (app apfx : String)
    (d : GoDate) (c : Int) (ca : ApplyReq → Except String NewRangeResp)
    (rn : Nat) (h1 : ¬ d.day ≠ (bindAppName usage0 app).applyDate.day)
    (h2 : ¬ wrap64 ((bindAppName usage0 app).currentMaxId +
        LeastAvailableIdNum) > (bindAppName usage0 app).currentRangeEnd) :
    GenerateIdWithAppendPrefix usage0 app apfx d c ca rn =
      finishServe (incrementAndGet (bindAppName usage0 app)).2
        (incrementAndGet (bindAppName usage0 app)).1
        (finalPfxOf (bindAppName usage0 app) apfx) (formatDate d) rn := by
  simp only [GenerateIdWithAppendPrefix]
  rw [if_neg h1, if_neg h2]

theorem generateId_error_eq (u : RangeUsageInfoStruct) (a apfx : String)
    (d : GoDate) (c : Int) (ca : ApplyReq → Except String NewRangeResp)
    (r : Nat) (err : String)
    (h : (GenerateIdWithAppendPrefix u a apfx d c ca r).1 = Except.error err) :
    err = "id map error" := by
  by_cases h1 : d.day ≠ (bindAppName u a).applyDate.day
  · rw [GIWAP_renew u a apfx d c ca r (Or.inl h1)] at h
    exact renewalServe_error_eq _ _ _ _ _ _ _ _ _ h
  · by_cases h2 : wrap64 ((bindAppName u a).currentMaxId +
        LeastAvailableIdNum) > (bindAppName u a).currentRangeEnd
    · rw [GIWAP_renew u a apfx d c ca r (Or.inr h2)] at h
      exact renewalServe_error_eq _ _ _ _ _ _ _ _ _ h
    · rw [GIWAP_fast u a apfx d c ca r h1 h2] at h
      exact finishServe_error_eq _ _ _ _ _ _ h

/-- Claim C1, counterexample.  The renewal trigger at line 109 compares only
the day-of-month components (`time.Day()`).  With a cached segment effective
on 2024-01-05 (cursor 100, bound 1000) and the current date 2024-02-05 —
full dates differ, day-of-month equal — no renewal is performed: the call
serves 101, the next integer of the old segment, on the fast path (the
output is the encoding of 101 and the state keeps the old date and bound),
even though the authority is reachable and would grant [5000, 6000]. -/
theorem dayRollover_fullDate_cx :
    GenerateId ⟨100, 1000, ⟨2024, 1, 5⟩, "app", "P", "P", "7"⟩ "app"
        ⟨2024, 2, 5⟩ 1 (fun _ => Except.ok ⟨5000, 6000⟩) 0 =
      (Except.ok "P-20240205AAACAC",
       ⟨101, 1000, ⟨2024, 1, 5⟩, "app", "P", "P", "7"⟩) ∧
    GenerateKey 101 "P" "20240205" = Except.ok "P-20240205AAACAC" ∧
    (⟨2024, 2, 5⟩ : GoDate) ≠ ⟨2024, 1, 5⟩ ∧
    (⟨2024, 2, 5⟩ : GoDate).day = (⟨2024, 1, 5⟩ : GoDate).day := by
  decide

/-- Claim C1, amended.  When the current day-of-month differs from the
cached segment's day-of-month, a renewal is performed before anything is
served, and no integer from the old segment is served: the output is either
the random-fallback identifier or the encoding of the `rangeStart` of the
grant the renewal returned. -/
theorem dayRollover_dayOfMonth (usage0 : RangeUsageInfoStruct) (app : String)
    (d : GoDate) (counter : Int)
    (caller : ApplyReq → Except String NewRangeResp) (rn : Nat)
    (hd : d.day ≠ usage0.applyDate.day) :
    ((∃ e, getNewIdRange counter caller (builtReq (bindAppName usage0 app) d)
        = Except.error e) ∧
      (GenerateId usage0 app d counter caller rn).1 =
        Except.ok (usage0.pfx ++ "-" ++ formatDate d ++
          randId rn usage0.hostKey)) ∨
    (∃ g b, getNewIdRange counter caller (builtReq (bindAppName usage0 app) d)
        = Except.ok (g, b) ∧
      ((GenerateId usage0 app d counter caller rn).1 =
          GenerateKey g.rangeStart usage0.pfx (formatDate d) ∨
        (GenerateId usage0 app d counter caller rn).1 =
          Except.ok (usage0.pfx ++ "-" ++ formatDate d ++
            randId rn usage0.hostKey))) := by
  obtain ⟨hcur, hbound, hdate, hbiz, hpfx, hhost⟩ :=
    bindAppName_fields usage0 app
  have hren := GIWAP_renew usage0 app "" d counter caller rn
    (Or.inl (by rw [hdate]; exact hd))
  unfold GenerateId
  cases hg : getNewIdRange counter caller
      (builtReq (bindAppName usage0 app) d) with
  | error e =>
      left
      refine ⟨⟨e, rfl⟩, ?_⟩
      rw [hren, renewalServe_error _ _ _ _ _ _ _ _ _ hg, finalPfxOf_empty,
        hpfx, hhost]
  | ok pr =>
      rcases pr with ⟨g, b⟩
      right
      refine ⟨g, b, rfl, ?_⟩
      cases b with
      | true =>
          left
          rw [hren, renewalServe_once _ _ _ _ _ _ _ _ _ hg, finalPfxOf_empty,
            hpfx]
      | false =>
          have hinst := replaceRange_install (bindAppName usage0 app)
            g.rangeStart g.rangeEnd d
            (fun hcontra => hd (hdate ▸ hcontra.1.symm))
          rw [hren, renewalServe_full _ _ _ _ _ _ _ _ _ hg, hinst]
          by_cases hz : g.rangeStart = 0 ∨ g.rangeStart > g.rangeEnd
          · right
            rw [finishServe_fallback _ _ _ _ _ (by simpa using hz)]
            simp only [finalPfxOf_empty, hpfx, hhost]
          · left
            rw [finishServe_serve _ _ _ _ _ (by simpa using hz)]
            simp only [finalPfxOf_empty, hpfx]

/-- Claim C1, amended, instantiated at a concrete input: a cached segment
effective on day-of-month 5 queried on day-of-month 6. -/
theorem dayRollover_dayOfMonth_case :
    ((6 : Nat) ≠ (5 : Nat)) ∧
    (((∃ e, getNewIdRange 1 (fun _ => Except.ok ⟨5000, 6000⟩)
        (builtReq (bindAppName ⟨100, 1000, ⟨2024, 1, 5⟩, "app", "P", "P", "7"⟩
          "app") ⟨2024, 1, 6⟩) = Except.error e) ∧
      (GenerateId ⟨100, 1000, ⟨2024, 1, 5⟩, "app", "P", "P", "7"⟩ "app"
          ⟨2024, 1, 6⟩ 1 (fun _ => Except.ok ⟨5000, 6000⟩) 0).1 =
        Except.ok ("P" ++ "-" ++ formatDate ⟨2024, 1, 6⟩ ++ randId 0 "7")) ∨
    (∃ g b, getNewIdRange 1 (fun _ => Except.ok ⟨5000, 6000⟩)
        (builtReq (bindAppName ⟨100, 1000, ⟨2024, 1, 5⟩, "app", "P", "P", "7"⟩
          "app") ⟨2024, 1, 6⟩) = Except.ok (g, b) ∧
      ((GenerateId ⟨100, 1000, ⟨2024, 1, 5⟩, "app", "P", "P", "7"⟩ "app"
          ⟨2024, 1, 6⟩ 1 (fun _ => Except.ok ⟨5000, 6000⟩) 0).1 =
          GenerateKey g.rangeStart "P" (formatDate ⟨2024, 1, 6⟩) ∨
        (GenerateId ⟨100, 1000, ⟨2024, 1, 5⟩, "app", "P", "P", "7"⟩ "app"
          ⟨2024, 1, 6⟩ 1 (fun _ => Except.ok ⟨5000, 6000⟩) 0).1 =
          Except.ok ("P" ++ "-" ++ formatDate ⟨2024, 1, 6⟩ ++ randId 0 "7")))) :=
  ⟨by decide,
   dayRollover_dayOfMonth ⟨100, 1000, ⟨2024, 1, 5⟩, "app", "P", "P", "7"⟩
     "app" ⟨2024, 1, 6⟩ 1 (fun _ => Except.ok ⟨5000, 6000⟩) 0 (by decide)⟩

/-! Claim C2: monotonicity of bound and cursor. -/

/-- Day used by the C2 operation trace. -/
def c2day : GoDate := ⟨2024, 1, 5⟩

/-- C2 trace: a first grant [10, 20] is installed on the empty cache. -/
def c2s1 : RangeUsageInfoStruct := (replaceRange (New "P" "7") 10 20 c2day).2

/-- C2 trace: ten fast-path increments bring the cursor to the bound. -/
def c2s2 : RangeUsageInfoStruct :=
  (fun s => (incrementAndGet s).2)^[10] c2s1

/-- C2 trace: a same-day grant [1, 2] (disjoint from every earlier grant)
is stale, so `replaceRange` increments the cursor past the bound. -/
def c2s3 : RangeUsageInfoStruct := (replaceRange c2s2 1 2 c2day).2

/-- C2 trace: a same-day stale grant [3, 4] pushes the cursor further. -/
def c2s4 : RangeUsageInfoStruct := (replaceRange c2s3 3 4 c2day).2

/-- C2 trace: a same-day grant [21, 100] (disjoint from every earlier
grant, end above the bound) is installed and resets the cursor to 21. -/
def c2s5 : RangeUsageInfoStruct := (replaceRange c2s4 21 100 c2day).2

set_option maxRecDepth 4000

/-- Claim C2, counterexample.  All four grants [10,20], [1,2], [3,4],
[21,100] are pairwise disjoint (the authority contract holds) and all
operations happen on the same date, yet the cursor decreases: after the
installed grant [10,20], ten increments and the two stale grants leave the
cursor at 22, and installing [21,100] resets it to 21 < 22.  So cursor is
not monotonically non-decreasing over every sequence of `incrementAndGet`
and `replaceRange` operations for a fixed date. -/
theorem replaceRange_cursor_can_decrease :
    List.Pairwise (fun a b : Int × Int => a.2 < b.1 ∨ b.2 < a.1)
      [(10, 20), (1, 2), (3, 4), (21, 100)] ∧
    c2s2.currentMaxId = 20 ∧ c2s2.currentRangeEnd = 20 ∧
    c2s4.currentMaxId = 22 ∧ c2s4.applyDate = c2day ∧
    c2s5.currentMaxId = 21 ∧ c2s5.applyDate = c2day ∧
    c2s5.currentMaxId < c2s4.currentMaxId := by
  decide

/-- Claim C2, amended.  For a fixed date (same day-of-month), `bound` is
monotonically non-decreasing and `replaceRange` never installs a range
whose end is not larger than the current bound (it increments the existing
cursor instead); and the cursor is non-decreasing across any single
`replaceRange` provided the cursor has not already been pushed past the
bound, the incoming grant does not straddle the cached bound (which the
authority's non-overlap contract guarantees, as the grant must be disjoint
from the grant that produced the cached segment), and the increment does
not overflow `int64`.  `incrementAndGet` always increases the cursor under
the same overflow proviso. -/
theorem replaceRange_monotone_bounded (s : RangeUsageInfoStruct)
    (rs re : Int) (d : GoDate) (hday : s.applyDate.day = d.day)
    (hcb : s.currentMaxId ≤ s.currentRangeEnd)
    (hlo : i64min ≤ s.currentMaxId) (hhi : s.currentMaxId < i64max)
    (hdisj : re ≤ s.currentRangeEnd ∨ s.currentRangeEnd < rs) :
    s.currentRangeEnd ≤ (replaceRange s rs re d).2.currentRangeEnd ∧
    s.currentMaxId ≤ (replaceRange s rs re d).2.currentMaxId ∧
    (re ≤ s.currentRangeEnd →
      (replaceRange s rs re d).2.currentRangeEnd = s.currentRangeEnd ∧
      (replaceRange s rs re d).2.currentMaxId = s.currentMaxId + 1) ∧
    s.currentMaxId < (incrementAndGet s).2.currentMaxId := by
  have hwrap : wrap64 (s.currentMaxId + 1) = s.currentMaxId + 1 := by
    simp only [i64min, i64max] at hlo hhi
    exact wrap64_eq_self (by omega) (by omega)
  have hinc : (incrementAndGet s).2.currentMaxId = s.currentMaxId + 1 := by
    unfold incrementAndGet
    rw [hwrap]
  by_cases hre : s.currentRangeEnd ≥ re
  · rw [replaceRange_stale s rs re d ⟨hday, hre⟩]
    refine ⟨le_refl _, ?_, ?_, ?_⟩
    · simp only [hwrap]
      omega
    · intro _
      exact ⟨rfl, by simp only [hwrap]⟩
    · rw [hinc]
      omega
  · have hrs : s.currentRangeEnd < rs := by
      rcases hdisj with h | h
      · exact absurd (le_of_lt (lt_of_not_ge hre)) (by omega)
      · exact h
    rw [replaceRange_install s rs re d (fun hco => hre hco.2)]
    refine ⟨by simp only []; omega, by simp only []; omega, ?_, ?_⟩
    · intro hco
      exact absurd hco hre
    · rw [hinc]
      omega

/-- Claim C2, amended, instantiated at a concrete input: cursor 5, bound
100, a disjoint higher grant [200, 300] on the same day. -/
theorem replaceRange_monotone_bounded_case :
    (((⟨5, 100, ⟨2024, 1, 5⟩, "a", "P", "P", "7"⟩ :
        RangeUsageInfoStruct).applyDate.day = (⟨2024, 1, 5⟩ : GoDate).day) ∧
      (5 : Int) ≤ 100 ∧ i64min ≤ (5 : Int) ∧ (5 : Int) < i64max ∧
      ((300 : Int) ≤ 100 ∨ (100 : Int) < 200)) ∧
    ((⟨5, 100, ⟨2024, 1, 5⟩, "a", "P", "P", "7"⟩ :
        RangeUsageInfoStruct).currentRangeEnd ≤
      (replaceRange ⟨5, 100, ⟨2024, 1, 5⟩, "a", "P", "P", "7"⟩ 200 300
        ⟨2024, 1, 5⟩).2.currentRangeEnd ∧
     (⟨5, 100, ⟨2024, 1, 5⟩, "a", "P", "P", "7"⟩ :
        RangeUsageInfoStruct).currentMaxId ≤
      (replaceRange ⟨5, 100, ⟨2024, 1, 5⟩, "a", "P", "P", "7"⟩ 200 300
        ⟨2024, 1, 5⟩).2.currentMaxId ∧
     ((300 : Int) ≤ (⟨5, 100, ⟨2024, 1, 5⟩, "a", "P", "P", "7"⟩ :
          RangeUsageInfoStruct).currentRangeEnd →
       (replaceRange ⟨5, 100, ⟨2024, 1, 5⟩, "a", "P", "P", "7"⟩ 200 300
          ⟨2024, 1, 5⟩).2.currentRangeEnd =
         (⟨5, 100, ⟨2024, 1, 5⟩, "a", "P", "P", "7"⟩ :
            RangeUsageInfoStruct).currentRangeEnd ∧
       (replaceRange ⟨5, 100, ⟨2024, 1, 5⟩, "a", "P", "P", "7"⟩ 200 300
          ⟨2024, 1, 5⟩).2.currentMaxId =
         (⟨5, 100, ⟨2024, 1, 5⟩, "a", "P", "P", "7"⟩ :
            RangeUsageInfoStruct).currentMaxId + 1) ∧
     (⟨5, 100, ⟨2024, 1, 5⟩, "a", "P", "P", "7"⟩ :
        RangeUsageInfoStruct).currentMaxId <
      (incrementAndGet
        ⟨5, 100, ⟨2024, 1, 5⟩, "a", "P", "P", "7"⟩).2.currentMaxId) :=
  ⟨⟨by decide, by decide, by decide, by decide, Or.inr (by decide)⟩,
   replaceRange_monotone_bounded ⟨5, 100, ⟨2024, 1, 5⟩, "a", "P", "P", "7"⟩
     200 300 ⟨2024, 1, 5⟩ (by decide) (by decide) (by decide) (by decide)
     (Or.inr (by decide))⟩

/-! Claim C3: behaviour at the low watermark (cursor 960, bound 1000). -/

/-- Cache state for the C3 scenario: cursor 960, bound 1000, effective
date 2024-01-05. -/
def c3State : RangeUsageInfoStruct :=
  ⟨960, 1000, ⟨2024, 1, 5⟩, "app", "P", "P", "7"⟩

/-- Current date for the C3 scenario, matching the segment's date. -/
def c3Date : GoDate := ⟨2024, 1, 5⟩

/-- Claim C3, counterexample.  With cursor 960, bound 1000, matching date
and a renewal call that returns an error, the `GenerateId` call does not
serve 961 from the old segment: it degrades to the random fallback
identifier (suffix starting with the marker 'Y'), which differs from the
encoding of 961, and leaves the state unchanged. -/
theorem lowWatermark_error_random_cx :
    (GenerateId c3State "app" c3Date 1 (fun _ => Except.error "down") 0).1 =
      Except.ok "P-20240105YHAAAAAAAAAA" ∧
    ("P-20240105YHAAAAAAAAAA".toList.drop 10).head? = some 'Y' ∧
    GenerateKey 961 "P" "20240105" = Except.ok "P-20240105AAAUQC" ∧
    ("P-20240105YHAAAAAAAAAA" : String) ≠ "P-20240105AAAUQC" ∧
    (GenerateId c3State "app" c3Date 1 (fun _ => Except.error "down") 0).2 =
      c3State := by
  decide

/-- Claim C3, amended.  With cursor 960, bound 1000 and matching date, a
`GenerateId` call triggers a renewal (960 + 50 > 1000); when the renewal
succeeds but loses to a concurrent renewal (its grant's end is at most the
current bound 1000), the call still serves 961 from the old segment (the
stale-replace branch increments the cursor, the bound stays 1000); when
the renewal call errors, the call degrades to a random identifier instead
of serving 961. -/
theorem lowWatermark_serves_961
    (caller : ApplyReq → Except String NewRangeResp) (g : NewRangeResp)
    (counter : Int) (rn : Nat) (hc : counter ≤ 2)
    (hg : caller (builtReq c3State c3Date) = Except.ok g)
    (hge : g.rangeEnd ≤ 1000) :
    ((GenerateId c3State "app" c3Date counter caller rn).1 =
        Except.ok "P-20240105AAAUQC" ∧
      (GenerateId c3State "app" c3Date counter caller rn).2.currentMaxId =
        961 ∧
      (GenerateId c3State "app" c3Date counter caller rn).2.currentRangeEnd =
        1000) ∧
    ∀ (caller2 : ApplyReq → Except String NewRangeResp) (e : String),
      caller2 (builtReq c3State c3Date) = Except.error e →
      (GenerateId c3State "app" c3Date counter caller2 rn).1 =
        Except.ok ("P-20240105" ++ randId rn "7") := by
  have hnot : ¬ counter > 2 := not_lt.mpr hc
  have hbind : bindAppName c3State "app" = c3State := by decide
  have htrig : wrap64 ((bindAppName c3State "app").currentMaxId +
      LeastAvailableIdNum) > (bindAppName c3State "app").currentRangeEnd := by
    rw [hbind]
    decide
  constructor
  · have hgn : getNewIdRange counter caller (builtReq c3State c3Date) =
        Except.ok (g, false) := by
      rw [getNewIdRange_full counter caller _ hnot, hg]
      rfl
    have hren := GIWAP_renew c3State "app" "" c3Date counter caller rn
      (Or.inr htrig)
    rw [hbind] at hren
    have hfull := renewalServe_full c3State (builtReq c3State c3Date)
      (finalPfxOf c3State "") (formatDate c3Date) c3Date counter caller rn g
      hgn
    have hstale := replaceRange_stale c3State g.rangeStart g.rangeEnd c3Date
      ⟨rfl, hge⟩
    have hw : wrap64 (c3State.currentMaxId + 1) = 961 := by decide
    rw [hw] at hstale
    simp only [hstale] at hfull
    have hserve := finishServe_serve
      ({ c3State with currentMaxId := 961 }) 961 (finalPfxOf c3State "")
      (formatDate c3Date) rn (by decide)
    rw [hserve] at hfull
    have hkey : GenerateKey 961 (finalPfxOf c3State "") (formatDate c3Date) =
        Except.ok "P-20240105AAAUQC" := by decide
    unfold GenerateId
    rw [hren, hfull, hkey]
    exact ⟨rfl, rfl, rfl⟩
  · intro caller2 e he
    have hgn2 : getNewIdRange counter caller2 (builtReq c3State c3Date) =
        Except.error e := by
      rw [getNewIdRange_full counter caller2 _ hnot, he]
      rfl
    have hren2 := GIWAP_renew c3State "app" "" c3Date counter caller2 rn
      (Or.inr htrig)
    rw [hbind] at hren2
    have herr := renewalServe_error c3State (builtReq c3State c3Date)
      (finalPfxOf c3State "") (formatDate c3Date) c3Date counter caller2 rn e
      hgn2
    unfold GenerateId
    rw [hren2, herr,
      show finalPfxOf c3State "" ++ "-" ++ formatDate c3Date = "P-20240105"
        from by decide,
      show c3State.hostKey = "7" from rfl]

/-- Claim C3, amended, instantiated: a renewal that returns the stale
grant [500, 900] with counter 1 makes the call serve 961. -/
theorem lowWatermark_serves_961_case :
    ((1 : Int) ≤ 2 ∧
      (fun _ : ApplyReq =>
          (Except.ok ⟨500, 900⟩ : Except String NewRangeResp))
        (builtReq c3State c3Date) = Except.ok ⟨500, 900⟩ ∧
      (⟨500, 900⟩ : NewRangeResp).rangeEnd ≤ 1000) ∧
    (((GenerateId c3State "app" c3Date 1
        (fun _ => Except.ok ⟨500, 900⟩) 0).1 =
          Except.ok "P-20240105AAAUQC" ∧
      (GenerateId c3State "app" c3Date 1
        (fun _ => Except.ok ⟨500, 900⟩) 0).2.currentMaxId = 961 ∧
      (GenerateId c3State "app" c3Date 1
        (fun _ => Except.ok ⟨500, 900⟩) 0).2.currentRangeEnd = 1000) ∧
    ∀ (caller2 : ApplyReq → Except String NewRangeResp) (e : String),
      caller2 (builtReq c3State c3Date) = Except.error e →
      (GenerateId c3State "app" c3Date 1 caller2 0).1 =
        Except.ok ("P-20240105" ++ randId 0 "7")) :=
  ⟨⟨by decide, rfl, by decide⟩,
   lowWatermark_serves_961 (fun _ => Except.ok ⟨500, 900⟩) ⟨500, 900⟩ 1 0
     (by decide) rfl (by decide)⟩

/-! Claim C4: single-use downgrade under concurrent renewals. -/

/-- Authority stub for the C4 witness: grants [77, 77] to a step-1 request
and fails a full-step request. -/
def c4caller : ApplyReq → Except String NewRangeResp := fun r =>
  if r.step = 1 then Except.ok ⟨77, 77⟩ else Except.error "full"

/-- Request used by the C4 witness. -/
def c4req : ApplyReq := builtReq (bindAppName (New "P" "7") "app") ⟨2024, 1, 2⟩

/-- Claim C4.  When the in-flight counter read in `getNewIdRange` exceeds
two, the request is downgraded to step 1 and flagged single-use; when it
is at most two, the request keeps the full configured step (so at most two
concurrent attempts carry it).  A single-use grant's `rangeStart` is served
directly and the cached segment is left untouched — `replaceRange` is never
invoked with it (the call returns the unchanged state). -/
theorem singleUse_downgrade (counter : Int)
    (caller : ApplyReq → Except String NewRangeResp) (req : ApplyReq)
    (usage0 : RangeUsageInfoStruct) (app apfx : String) (d : GoDate)
    (rn : Nat) (g : NewRangeResp) :
    (counter > 2 →
      getNewIdRange counter caller req =
        Except.map (fun r => (r, true)) (caller { req with step := 1 })) ∧
    (counter ≤ 2 →
      getNewIdRange counter caller req =
        Except.map (fun r => (r, false)) (caller req)) ∧
    ((d.day ≠ (bindAppName usage0 app).applyDate.day ∨
        wrap64 ((bindAppName usage0 app).currentMaxId +
          LeastAvailableIdNum) > (bindAppName usage0 app).currentRangeEnd) →
      getNewIdRange counter caller (builtReq (bindAppName usage0 app) d) =
        Except.ok (g, true) →
      GenerateIdWithAppendPrefix usage0 app apfx d counter caller rn =
        (GenerateKey g.rangeStart (finalPfxOf (bindAppName usage0 app) apfx)
          (formatDate d),
         bindAppName usage0 app)) := by
  refine ⟨fun hc => getNewIdRange_once counter caller req hc,
    fun hc => getNewIdRange_full counter caller req (not_lt.mpr hc),
    fun htrig hok => ?_⟩
  rw [GIWAP_renew usage0 app apfx d counter caller rn htrig,
    renewalServe_once _ _ _ _ _ _ _ _ _ hok]

/-- Claim C4, instantiated: counter 3 downgrades to a step-1 single-use
request; the grant [77, 77] is served directly and the state is unchanged. -/
theorem singleUse_downgrade_case :
    ((3 : Int) > 2) ∧
    getNewIdRange 3 c4caller c4req =
      Except.map (fun r => (r, true)) (c4caller { c4req with step := 1 }) ∧
    ((⟨2024, 1, 2⟩ : GoDate).day ≠
      (bindAppName (New "P" "7") "app").applyDate.day) ∧
    getNewIdRange 3 c4caller c4req = Except.ok (⟨77, 77⟩, true) ∧
    GenerateIdWithAppendPrefix (New "P" "7") "app" "" ⟨2024, 1, 2⟩ 3
        c4caller 0 =
      (GenerateKey 77 (finalPfxOf (bindAppName (New "P" "7") "app") "")
        (formatDate ⟨2024, 1, 2⟩),
       bindAppName (New "P" "7") "app") := by
  have h := singleUse_downgrade 3 c4caller c4req (New "P" "7") "app" ""
    ⟨2024, 1, 2⟩ 0 ⟨77, 77⟩
  exact ⟨by decide, h.1 (by decide), by decide, by decide,
    h.2.2 (Or.inl (by decide)) (by decide)⟩

/-! Claim C5: authority failures are absorbed via the fallback path. -/

/-- Authority stub that always fails, used by the C5 witness. -/
def errCaller : ApplyReq → Except String NewRangeResp :=
  fun _ => Except.error "down"

theorem randId_head (rn : Nat) (hk : String) :
    (randId rn hk).toList.head? = some 'Y' := rfl

/-- Claim C5.  Whenever a `GenerateId` call performs a renewal (either
trigger) and the authority call returns an error, the call returns a
non-error result whose suffix is the random fallback beginning with the
reserved marker 'Y', and the cache state is unchanged; moreover the only
error a call can ever surface is the encoding-table-miss error
"id map error" — authority failures are never surfaced. -/
theorem renewal_error_absorbed (usage0 : RangeUsageInfoStruct) (app : String)
    (d : GoDate) (counter : Int)
    (caller : ApplyReq → Except String NewRangeResp) (rn : Nat) (e : String)
    (htrig : d.day ≠ (bindAppName usage0 app).applyDate.day ∨
      wrap64 ((bindAppName usage0 app).currentMaxId + LeastAvailableIdNum) >
        (bindAppName usage0 app).currentRangeEnd)
    (herr : getNewIdRange counter caller (builtReq (bindAppName usage0 app) d)
      = Except.error e) :
    (GenerateId usage0 app d counter caller rn).1 =
      Except.ok (usage0.pfx ++ "-" ++ formatDate d ++
        randId rn usage0.hostKey) ∧
    (randId rn usage0.hostKey).toList.head? = some 'Y' ∧
    (GenerateId usage0 app d counter caller rn).2 = bindAppName usage0 app ∧
    ∀ (u : RangeUsageInfoStruct) (a apfx : String) (d' : GoDate) (c : Int)
      (ca : ApplyReq → Except String NewRangeResp) (r : Nat) (err : String),
      (GenerateIdWithAppendPrefix u a apfx d' c ca r).1 = Except.error err →
      err = "id map error" := by
  obtain ⟨hcur, hbound, hdate, hbiz, hpfx, hhost⟩ :=
    bindAppName_fields usage0 app
  unfold GenerateId
  rw [GIWAP_renew usage0 app "" d counter caller rn htrig,
    renewalServe_error _ _ _ _ _ _ _ _ _ herr]
  refine ⟨?_, randId_head rn usage0.hostKey, rfl,
    fun u a apfx d' c ca r err h =>
      generateId_error_eq u a apfx d' c ca r err h⟩
  rw [finalPfxOf_empty, hpfx, hhost]

/-- Claim C5, instantiated: first-use renewal on 2024-01-02 fails, the
call returns the fallback identifier. -/
theorem renewal_error_absorbed_case :
    ((⟨2024, 1, 2⟩ : GoDate).day ≠
      (bindAppName (New "P" "7") "app").applyDate.day) ∧
    getNewIdRange 1 errCaller
      (builtReq (bindAppName (New "P" "7") "app") ⟨2024, 1, 2⟩) =
      Except.error "down" ∧
    ((GenerateId (New "P" "7") "app" ⟨2024, 1, 2⟩ 1 errCaller 0).1 =
      Except.ok ((New "P" "7").pfx ++ "-" ++ formatDate ⟨2024, 1, 2⟩ ++
        randId 0 (New "P" "7").hostKey) ∧
     (randId 0 (New "P" "7").hostKey).toList.head? = some 'Y' ∧
     (GenerateId (New "P" "7") "app" ⟨2024, 1, 2⟩ 1 errCaller 0).2 =
       bindAppName (New "P" "7") "app" ∧
     ∀ (u : RangeUsageInfoStruct) (a apfx : String) (d' : GoDate) (c : Int)
       (ca : ApplyReq → Except String NewRangeResp) (r : Nat) (err : String),
       (GenerateIdWithAppendPrefix u a apfx d' c ca r).1 =
         Except.error err →
       err = "id map error") :=
  ⟨by decide, by decide,
   renewal_error_absorbed (New "P" "7") "app" ⟨2024, 1, 2⟩ 1 errCaller 0
     "down" (Or.inl (by decide)) (by decide)⟩

/-! Claim C6: first call on an empty cache with grant [1, 1000]. -/

/-- Authority stub granting [1, 1000], used by the C6 scenario. -/
def c6caller : ApplyReq → Except String NewRangeResp :=
  fun _ => Except.ok ⟨1, 1000⟩

/-- Claim C6, counterexample.  Starting from the empty cache (zero cursor
and bound, zero-value date), a single `GenerateId` call on 2024-01-01
whose renewal returns [1, 1000] does serve the integer 1, but the suffix
is the six-character `"AAAAAC"` (the code zero-pads with `"%06d"`), which
decodes through the inverse digit map to `"000001"`, not to the
five-character `"00001"` the claim states. -/
theorem emptyCache_decode_cx :
    (GenerateId (New "P" "7") "app" ⟨2024, 1, 1⟩ 1 c6caller 0).1 =
      Except.ok "P-20240101AAAAAC" ∧
    (GenerateId (New "P" "7") "app" ⟨2024, 1, 1⟩ 1 c6caller 0).2.currentMaxId
      = 1 ∧
    decodeChars "AAAAAC".toList = some "000001".toList ∧
    ("000001" : String) ≠ "00001" ∧
    decodeChars "AAAAAC".toList ≠ some "00001".toList := by
  decide

/-- Claim C6, amended.  Starting from the empty cache, a single
`GenerateId` call on 2024-01-01 whose renewal returns [1, 1000] installs
the range, serves the integer 1, and produces the identifier
"P-20240101AAAAAC", whose suffix decodes through the inverse digit map to
the six-digit string "000001". -/
theorem emptyCache_serves_one :
    GenerateId (New "P" "7") "app" ⟨2024, 1, 1⟩ 1 c6caller 0 =
      (Except.ok "P-20240101AAAAAC",
       ⟨1, 1000, ⟨2024, 1, 1⟩, "app", "P", "P", "7"⟩) ∧
    GenerateKey 1 "P" "20240101" = Except.ok "P-20240101AAAAAC" ∧
    decodeChars ['A', 'A', 'A', 'A', 'A', 'C'] =
      some ['0', '0', '0', '0', '0', '1'] := by
  decide

/-! Claim C7: consecutive fast-path calls serve consecutive integers. -/

/-- Single fast-path step: when the date matches and the cursor is at
least the low watermark away from the bound, a call serves cursor+1 and
only bumps the cursor. -/
theorem fastPath_eq (s : RangeUsageInfoStruct) (app : String) (d : GoDate)
    (counter : Int) (caller : ApplyReq → Except String NewRangeResp)
    (rn : Nat) (hday : s.applyDate.day = d.day) (h0 : 0 ≤ s.currentMaxId)
    (hb : s.currentMaxId + 50 ≤ s.currentRangeEnd)
    (hbr : s.currentRangeEnd ≤ i64max) :
    GenerateIdWithAppendPrefix s app "" d counter caller rn =
      (GenerateKey (s.currentMaxId + 1) s.pfx (formatDate d),
       ⟨s.currentMaxId + 1, s.currentRangeEnd, s.applyDate,
        (bindAppName s app).appName, s.bizType, s.pfx, s.hostKey⟩) := by
  obtain ⟨hcur, hbound, hdate, hbiz, hpfx, hhost⟩ := bindAppName_fields s app
  have hmax : s.currentMaxId + 50 < 2 ^ 63 := by
    simp only [i64max] at hbr
    omega
  have hw50 : wrap64 ((bindAppName s app).currentMaxId + LeastAvailableIdNum)
      = s.currentMaxId + 50 := by
    rw [hcur]
    simp only [LeastAvailableIdNum]
    exact wrap64_eq_self (by omega) hmax
  have h1 : ¬ d.day ≠ (bindAppName s app).applyDate.day := by
    rw [hdate, hday]
    exact fun h => h rfl
  have h2 : ¬ wrap64 ((bindAppName s app).currentMaxId + LeastAvailableIdNum)
      > (bindAppName s app).currentRangeEnd := by
    rw [hw50, hbound]
    omega
  have hw1 : wrap64 ((bindAppName s app).currentMaxId + 1) =
      s.currentMaxId + 1 := by
    rw [hcur]
    exact wrap64_eq_self (by omega) (by omega)
  have hincr : incrementAndGet (bindAppName s app) =
      (s.currentMaxId + 1,
       { bindAppName s app with currentMaxId := s.currentMaxId + 1 }) := by
    unfold incrementAndGet
    rw [hw1]
  have hproj : ({ bindAppName s app with
      currentMaxId := s.currentMaxId + 1 } :
      RangeUsageInfoStruct).currentRangeEnd = s.currentRangeEnd := hbound
  have h3 : ¬(s.currentMaxId + 1 = 0 ∨ s.currentMaxId + 1 >
      ({ bindAppName s app with currentMaxId := s.currentMaxId + 1 } :
        RangeUsageInfoStruct).currentRangeEnd) := by
    rw [hproj]
    push_neg
    omega
  rw [GIWAP_fast s app "" d counter caller rn h1 h2, hincr]
  rw [finishServe_serve _ _ _ _ _ h3, finalPfxOf_empty, hpfx]
  simp only [hbound, hdate, hbiz, hpfx, hhost]

/-- Claim C7.  For N consecutive fast-path `GenerateId` calls against a
cache with starting cursor C, the segment's date matching today and
C + N + 50 ≤ bound (so the low watermark is never crossed and no renewal
occurs), the served outputs are exactly the encodings of C+1, C+2, ...,
C+N in order — strictly increasing, no duplicates, no gaps — and the
final cursor is C+N with bound and date untouched. -/
theorem fastPath_run (s : RangeUsageInfoStruct) (app : String) (d : GoDate)
    (counter : Int) (caller : ApplyReq → Except String NewRangeResp)
    (rn : Nat) (N : Nat) (hday : s.applyDate.day = d.day)
    (h0 : 0 ≤ s.currentMaxId)
    (hb : s.currentMaxId + N + 50 ≤ s.currentRangeEnd)
    (hbr : s.currentRangeEnd ≤ i64max) :
    (runCalls app d counter caller rn N s).1 =
      (List.range N).map
        (fun i : Nat =>
          GenerateKey (s.currentMaxId + (i : Int) + 1) s.pfx
            (formatDate d)) ∧
    (runCalls app d counter caller rn N s).2.currentMaxId =
      s.currentMaxId + N ∧
    (runCalls app d counter caller rn N s).2.currentRangeEnd =
      s.currentRangeEnd ∧
    (runCalls app d counter caller rn N s).2.applyDate = s.applyDate := by
  induction N generalizing s with
  | zero =>
      exact ⟨by simp [runCalls], by simp [runCalls], rfl, rfl⟩
  | succ n ih =>
      obtain ⟨hcur, hbound, hdate, hbiz, hpfx, hhost⟩ :=
        bindAppName_fields s app
      have hstep := fastPath_eq s app d counter caller rn hday h0
        (by omega) hbr
      have ih' := ih (⟨s.currentMaxId + 1, s.currentRangeEnd, s.applyDate,
          (bindAppName s app).appName, s.bizType, s.pfx, s.hostKey⟩ :
          RangeUsageInfoStruct)
        hday (by show 0 ≤ s.currentMaxId + 1; omega)
        (by show s.currentMaxId + 1 + (n : Int) + 50 ≤ s.currentRangeEnd
            push_cast at hb
            omega)
        hbr
      simp only [runCalls]
      rw [hstep]
      refine ⟨?_, ?_, ?_, ?_⟩
      · show GenerateKey (s.currentMaxId + 1) s.pfx (formatDate d) ::
            (runCalls app d counter caller rn n
              ⟨s.currentMaxId + 1, s.currentRangeEnd, s.applyDate,
               (bindAppName s app).appName, s.bizType, s.pfx,
               s.hostKey⟩).1 = _
        rw [ih'.1, List.range_succ_eq_map, List.map_cons, List.map_map]
        congr 1
        · norm_num
        · apply List.map_congr_left
          intro i _
          show GenerateKey (s.currentMaxId + 1 + (i : Int) + 1) s.pfx
              (formatDate d) =
            GenerateKey (s.currentMaxId + ((i + 1 : Nat) : Int) + 1) s.pfx
              (formatDate d)
          congr 1
          push_cast
          ring
      · show (runCalls app d counter caller rn n
            ⟨s.currentMaxId + 1, s.currentRangeEnd, s.applyDate,
             (bindAppName s app).appName, s.bizType, s.pfx,
             s.hostKey⟩).2.currentMaxId = _
        rw [ih'.2.1]
        show s.currentMaxId + 1 + (n : Int) = s.currentMaxId + ((n + 1 : Nat) : Int)
        push_cast
        ring
      · show (runCalls app d counter caller rn n
            ⟨s.currentMaxId + 1, s.currentRangeEnd, s.applyDate,
             (bindAppName s app).appName, s.bizType, s.pfx,
             s.hostKey⟩).2.currentRangeEnd = _
        rw [ih'.2.2.1]
      · show (runCalls app d counter caller rn n
            ⟨s.currentMaxId + 1, s.currentRangeEnd, s.applyDate,
             (bindAppName s app).appName, s.bizType, s.pfx,
             s.hostKey⟩).2.applyDate = _
        rw [ih'.2.2.2]

/-- Claim C7, instantiated: three fast-path calls from cursor 5 serve the
encodings of 6, 7, 8 and leave the cursor at 8. -/
theorem fastPath_run_case :
    (((⟨5, 100, ⟨2024, 1, 5⟩, "app", "P", "P", "7"⟩ :
        RangeUsageInfoStruct).applyDate.day = (⟨2024, 1, 5⟩ : GoDate).day) ∧
      (0 : Int) ≤ 5 ∧ (5 : Int) + (3 : Nat) + 50 ≤ 100 ∧
      (100 : Int) ≤ i64max) ∧
    ((runCalls "app" ⟨2024, 1, 5⟩ 1 errCaller 0 3
        ⟨5, 100, ⟨2024, 1, 5⟩, "app", "P", "P", "7"⟩).1 =
      (List.range 3).map
        (fun i : Nat =>
          GenerateKey ((5 : Int) + (i : Int) + 1) "P"
            (formatDate ⟨2024, 1, 5⟩)) ∧
     (runCalls "app" ⟨2024, 1, 5⟩ 1 errCaller 0 3
        ⟨5, 100, ⟨2024, 1, 5⟩, "app", "P", "P", "7"⟩).2.currentMaxId =
       (5 : Int) + (3 : Nat) ∧
     (runCalls "app" ⟨2024, 1, 5⟩ 1 errCaller 0 3
        ⟨5, 100, ⟨2024, 1, 5⟩, "app", "P", "P", "7"⟩).2.currentRangeEnd =
       100 ∧
     (runCalls "app" ⟨2024, 1, 5⟩ 1 errCaller 0 3
        ⟨5, 100, ⟨2024, 1, 5⟩, "app", "P", "P", "7"⟩).2.applyDate =
       ⟨2024, 1, 5⟩) :=
  ⟨⟨by decide, by decide, by norm_num, by decide⟩,
   fastPath_run ⟨5, 100, ⟨2024, 1, 5⟩, "app", "P", "P", "7"⟩ "app"
     ⟨2024, 1, 5⟩ 1 errCaller 0 3 (by decide) (by decide) (by norm_num)
     (by decide)⟩

/-! Claims C8, C9: encoder range and totality; C10: pinned identity. -/

/-- Every letter produced by the digit-to-letter table lies in its range
and is never the fallback marker. -/
theorem keyMapFn_mem (c d : Char) (h : keyMapFn c = some d) :
    d ∈ tableVals ∧ d ≠ 'Y' := by
  unfold keyMapFn at h
  split_ifs at h <;> injection h with h2 <;> subst h2 <;> decide

/-- Every character of an encoded suffix lies in the table's range and is
never the fallback marker. -/
theorem encodeChars_mem (cs : List Char) (out : List Char)
    (h : encodeChars cs = some out) : ∀ c ∈ out, c ∈ tableVals ∧ c ≠ 'Y' := by
  induction cs generalizing out with
  | nil =>
      unfold encodeChars at h
      cases h
      intro c hc
      cases hc
  | cons c cs ih =>
      unfold encodeChars at h
      cases hk : keyMapFn c with
      | none => rw [hk] at h; cases h
      | some d =>
          rw [hk] at h
          cases henc : encodeChars cs with
          | none => rw [henc] at h; cases h
          | some ds =>
              rw [henc] at h
              cases h
              intro x hx
              rcases List.mem_cons.mp hx with rfl | hx'
              · exact keyMapFn_mem c x hk
              · exact ih ds henc x hx'

/-- Claim C8.  For every random draw and every host key the fallback
suffix begins with the marker 'Y'; the digit-to-letter table maps the
digits only into {A, C, E, F, H, N, Q, R, S, U}, so no character of an
Encoder-derived suffix is ever 'Y', and every identifier produced by
`GenerateKey` carries a suffix free of 'Y' — fallback identifiers and
segment-derived identifiers are distinguishable by the first character of
their suffix. -/
theorem fallback_marker_distinct :
    (∀ (num : Nat) (hk : String), (randId num hk).toList.head? = some 'Y') ∧
    (∀ c d, keyMapFn c = some d → d ∈ tableVals ∧ d ≠ 'Y') ∧
    (∀ cs out, encodeChars cs = some out →
      ∀ c ∈ out, c ∈ tableVals ∧ c ≠ 'Y') ∧
    (∀ (n : Int) (p t s : String), GenerateKey n p t = Except.ok s →
      ∃ suf, s = p ++ "-" ++ t ++ String.mk suf ∧
        ∀ c ∈ suf, c ∈ tableVals ∧ c ≠ 'Y') := by
  refine ⟨fun num hk => randId_head num hk, keyMapFn_mem, encodeChars_mem,
    fun n p t s h => ?_⟩
  unfold GenerateKey at h
  cases henc : encodeChars (sprintf06d n) with
  | none => rw [henc] at h; cases h
  | some suf =>
      rw [henc] at h
      cases h
      exact ⟨suf, rfl, encodeChars_mem _ suf henc⟩

/-- Claim C8, instantiated at draw 123 with host key "27" and the table
entry for digit 0. -/
theorem fallback_marker_distinct_case :
    (randId 123 "27").toList.head? = some 'Y' ∧
    ('A' ∈ tableVals ∧ 'A' ≠ 'Y') :=
  ⟨fallback_marker_distinct.1 123 "27",
   fallback_marker_distinct.2.1 '0' 'A' (by decide)⟩

/-- The encoding loop fails exactly when some character has no table
entry. -/
theorem encodeChars_eq_none_iff (cs : List Char) :
    encodeChars cs = none ↔ ∃ c ∈ cs, keyMapFn c = none := by
  induction cs with
  | nil => simp [encodeChars]
  | cons c cs ih =>
      cases hk : keyMapFn c with
      | none =>
          simp only [encodeChars, hk]
          exact ⟨fun _ => ⟨c, List.mem_cons_self c cs, hk⟩, fun _ => trivial⟩
      | some d =>
          cases henc : encodeChars cs with
          | none =>
              simp only [encodeChars, hk, henc]
              constructor
              · intro _
                obtain ⟨x, hx, hxn⟩ := ih.mp henc
                exact ⟨x, List.mem_cons_of_mem c hx, hxn⟩
              · intro _
                trivial
          | some ds =>
              simp only [encodeChars, hk, henc]
              constructor
              · intro hcontra
                cases hcontra
              · rintro ⟨x, hx, hxn⟩
                rcases List.mem_cons.mp hx with rfl | hx'
                · rw [hk] at hxn
                  cases hxn
                · have hcs : encodeChars cs = none := ih.mpr ⟨x, hx', hxn⟩
                  rw [henc] at hcs
                  cases hcs

/-- Every character produced by the decimal renderer is a digit
character. -/
theorem natDecCharsGo_mem (fuel : Nat) :
    ∀ (n : Nat) (acc : List Char) (c : Char), c ∈ natDecCharsGo fuel n acc →
      (∃ d, d < 10 ∧ c = digitChar d) ∨ c ∈ acc := by
  induction fuel with
  | zero =>
      intro n acc c h
      exact Or.inr h
  | succ f ih =>
      intro n acc c h
      unfold natDecCharsGo at h
      by_cases hn : n < 10
      · rw [if_pos hn] at h
        rcases List.mem_cons.mp h with rfl | h'
        · exact Or.inl ⟨n, hn, rfl⟩
        · exact Or.inr h'
      · rw [if_neg hn] at h
        rcases ih (n / 10) (digitChar (n % 10) :: acc) c h with hd | hmem
        · exact Or.inl hd
        · rcases List.mem_cons.mp hmem with rfl | h'
          · exact Or.inl ⟨n % 10, Nat.mod_lt _ (by norm_num), rfl⟩
          · exact Or.inr h'

/-- For a nonnegative value, every character of the `"%06d"` rendering
has a table entry. -/
theorem sprintf06d_nonneg_mapped (n : Int) (h : 0 ≤ n) :
    ∀ c ∈ sprintf06d n, (keyMapFn c).isSome := by
  intro c hc
  unfold sprintf06d at hc
  rw [if_neg (not_lt.mpr h)] at hc
  unfold padZerosTo at hc
  rcases List.mem_append.mp hc with hrep | hdec
  · rw [List.eq_of_mem_replicate hrep]
    decide
  · unfold natDecChars at hdec
    rcases natDecCharsGo_mem 20 n.toNat [] c hdec with ⟨d, hd, rfl⟩ | hmem
    · exact (by decide : ∀ d : Nat, d < 10 → (keyMapFn (digitChar d)).isSome)
        d hd
    · cases hmem

/-- The encoding loop succeeds when every character has a table entry. -/
theorem encodeChars_isSome_of (cs : List Char)
    (h : ∀ c ∈ cs, (keyMapFn c).isSome) : ∃ out, encodeChars cs = some out := by
  cases he : encodeChars cs with
  | none =>
      obtain ⟨c, hc, hcn⟩ := (encodeChars_eq_none_iff cs).mp he
      have hcs := h c hc
      rw [hcn] at hcs
      simp at hcs
  | some out => exact ⟨out, rfl⟩

/-- Claim C9.  `GenerateKey` returns an error exactly when some character
of the zero-padded decimal rendering of the served integer has no entry in
the digit-to-letter table; for every nonnegative served integer the
rendering consists only of decimal digits, all of which are in the table,
so the error branch is unreachable and encoding always succeeds. -/
theorem generateKey_total_nonneg (n : Int) (p t : String) :
    ((∃ e, GenerateKey n p t = Except.error e) ↔
      ∃ c ∈ sprintf06d n, keyMapFn c = none) ∧
    (0 ≤ n → ∃ s, GenerateKey n p t = Except.ok s) := by
  constructor
  · constructor
    · rintro ⟨e, he⟩
      cases henc : encodeChars (sprintf06d n) with
      | none => exact (encodeChars_eq_none_iff _).mp henc
      | some out =>
          unfold GenerateKey at he
          rw [henc] at he
          cases he
    · intro hex
      refine ⟨"id map error", ?_⟩
      unfold GenerateKey
      rw [(encodeChars_eq_none_iff _).mpr hex]
  · intro hn
    obtain ⟨out, hout⟩ :=
      encodeChars_isSome_of _ (sprintf06d_nonneg_mapped n hn)
    refine ⟨p ++ "-" ++ t ++ String.mk out, ?_⟩
    unfold GenerateKey
    rw [hout]

/-- Claim C9, instantiated at the served integer 961. -/
theorem generateKey_total_nonneg_case :
    (0 : Int) ≤ 961 ∧ ∃ s, GenerateKey 961 "P" "20240105" = Except.ok s :=
  ⟨by decide, (generateKey_total_nonneg 961 "P" "20240105").2 (by decide)⟩

/-- A renewal only ever changes the segment fields of the state. -/
theorem renewalServe_shape (u : RangeUsageInfoStruct) (req : ApplyReq)
    (p t : String) (d : GoDate) (c : Int)
    (ca : ApplyReq → Except String NewRangeResp) (rn : Nat) :
    ∃ cur bound ad, (renewalServe u req p t d c ca rn).2 =
      ⟨cur, bound, ad, u.appName, u.bizType, u.pfx, u.hostKey⟩ := by
  unfold renewalServe
  cases hg : getNewIdRange c ca req with
  | error e =>
      rw [finishServe_state]
      exact ⟨u.currentMaxId, u.currentRangeEnd, u.applyDate, rfl⟩
  | ok pr =>
      rcases pr with ⟨resp, b⟩
      cases b with
      | true => exact ⟨u.currentMaxId, u.currentRangeEnd, u.applyDate, rfl⟩
      | false =>
          rw [finishServe_state]
          unfold replaceRange
          split
          · exact ⟨wrap64 (u.currentMaxId + 1), u.currentRangeEnd,
              u.applyDate, rfl⟩
          · exact ⟨resp.rangeStart, resp.rangeEnd, d, rfl⟩

/-- A `GenerateIdWithAppendPrefix` call only ever changes the segment
fields of the (appName-bound) state. -/
theorem stateShape (s : RangeUsageInfoStruct) (app apfx : String)
    (d : GoDate) (c : Int) (ca : ApplyReq → Except String NewRangeResp)
    (rn : Nat) :
    ∃ cur bound ad,
      (GenerateIdWithAppendPrefix s app apfx d c ca rn).2 =
        ⟨cur, bound, ad, (bindAppName s app).appName,
         (bindAppName s app).bizType, (bindAppName s app).pfx,
         (bindAppName s app).hostKey⟩ := by
  by_cases h1 : d.day ≠ (bindAppName s app).applyDate.day
  · rw [GIWAP_renew s app apfx d c ca rn (Or.inl h1)]
    exact renewalServe_shape _ _ _ _ _ _ _ _
  · by_cases h2 : wrap64 ((bindAppName s app).currentMaxId +
        LeastAvailableIdNum) > (bindAppName s app).currentRangeEnd
    · rw [GIWAP_renew s app apfx d c ca rn (Or.inr h2)]
      exact renewalServe_shape _ _ _ _ _ _ _ _
    · rw [GIWAP_fast s app apfx d c ca rn h1 h2, finishServe_state]
      exact ⟨wrap64 ((bindAppName s app).currentMaxId + 1),
        (bindAppName s app).currentRangeEnd,
        (bindAppName s app).applyDate, rfl⟩

/-- Once `appName` is nonempty, any sequence of calls with arbitrary
application names leaves `appName` and `bizType` unchanged. -/
theorem runApps_pinned (d : GoDate) (c : Int)
    (ca : ApplyReq → Except String NewRangeResp) (rn : Nat)
    (apps : List String) (s : RangeUsageInfoStruct) (h : s.appName ≠ "") :
    (runApps d c ca rn apps s).appName = s.appName ∧
    (runApps d c ca rn apps s).bizType = s.bizType := by
  induction apps generalizing s with
  | nil => exact ⟨rfl, rfl⟩
  | cons a rest ih =>
      obtain ⟨cur, bound, ad, hshape⟩ := stateShape s a "" d c ca rn
      have hbind : (bindAppName s a).appName = s.appName := by
        unfold bindAppName
        rw [if_neg h]
      have happ : (GenerateIdWithAppendPrefix s a "" d c ca rn).2.appName =
          s.appName := by
        rw [hshape]
        exact hbind
      have hbiz : (GenerateIdWithAppendPrefix s a "" d c ca rn).2.bizType =
          s.bizType := by
        rw [hshape]
        exact (bindAppName_fields s a).2.2.2.1
      have hne : (GenerateIdWithAppendPrefix s a "" d c ca rn).2.appName ≠ ""
        := by rw [happ]; exact h
      simp only [runApps]
      obtain ⟨ih1, ih2⟩ := ih _ hne
      exact ⟨ih1.trans happ, ih2.trans hbiz⟩

/-- Claim C10.  `New` fixes `bizType` to the prefix argument and leaves
`appName` empty; every call preserves `bizType` and `pfx` and sets
`appName` exactly as the first-use binding does (only while previously
empty); the renewal request always carries the stored `appName` and
`bizType` pair (with only the step possibly altered by the single-use
downgrade); and over any sequence of calls starting with a nonempty
application name, every later call — whatever its `applicationName`
argument — leaves the first-bound (appName, bizType) identity in place. -/
theorem identity_pinned :
    (∀ pfx0 hk, (New pfx0 hk).bizType = pfx0 ∧ (New pfx0 hk).appName = "") ∧
    (∀ (s : RangeUsageInfoStruct) (app apfx : String) (d : GoDate)
      (counter : Int) (caller : ApplyReq → Except String NewRangeResp)
      (rn : Nat),
      (GenerateIdWithAppendPrefix s app apfx d counter caller rn).2.bizType
        = s.bizType ∧
      (GenerateIdWithAppendPrefix s app apfx d counter caller rn).2.pfx
        = s.pfx ∧
      (GenerateIdWithAppendPrefix s app apfx d counter caller rn).2.appName
        = (bindAppName s app).appName) ∧
    (∀ (s : RangeUsageInfoStruct) (app : String), s.appName ≠ "" →
      (bindAppName s app).appName = s.appName) ∧
    (∀ (s : RangeUsageInfoStruct) (app : String), s.appName = "" →
      (bindAppName s app).appName = app) ∧
    (∀ (u : RangeUsageInfoStruct) (d : GoDate),
      (builtReq u d).appName = u.appName ∧
      (builtReq u d).bizType = u.bizType ∧
      (builtReq u d).step = constIncrementStep) ∧
    (∀ (counter : Int) (caller : ApplyReq → Except String NewRangeResp)
      (req : ApplyReq),
      getNewIdRange counter caller req =
        if counter > 2 then
          Except.map (fun r => (r, true)) (caller { req with step := 1 })
        else Except.map (fun r => (r, false)) (caller req)) ∧
    (∀ (apps : List String) (a pfx0 hk : String) (d : GoDate)
      (counter : Int) (caller : ApplyReq → Except String NewRangeResp)
      (rn : Nat), a ≠ "" →
      (runApps d counter caller rn (a :: apps) (New pfx0 hk)).appName = a ∧
      (runApps d counter caller rn (a :: apps) (New pfx0 hk)).bizType =
        pfx0) := by
  refine ⟨fun pfx0 hk => ⟨rfl, rfl⟩, ?_, ?_, ?_,
    fun u d => ⟨rfl, rfl, rfl⟩, ?_, ?_⟩
  · intro s app apfx d counter caller rn
    obtain ⟨cur, bound, ad, hshape⟩ := stateShape s app apfx d counter
      caller rn
    rw [hshape]
    exact ⟨(bindAppName_fields s app).2.2.2.1,
      (bindAppName_fields s app).2.2.2.2.1, rfl⟩
  · intro s app h
    unfold bindAppName
    rw [if_neg h]
  · intro s app h
    unfold bindAppName
    rw [if_pos h]
  · intro counter caller req
    by_cases hc : counter > 2
    · rw [if_pos hc]
      exact getNewIdRange_once counter caller req hc
    · rw [if_neg hc]
      exact getNewIdRange_full counter caller req hc
  · intro apps a pfx0 hk d counter caller rn ha
    obtain ⟨cur, bound, ad, hshape⟩ := stateShape (New pfx0 hk) a "" d
      counter caller rn
    have hbind : (bindAppName (New pfx0 hk) a).appName = a := by
      unfold bindAppName
      rw [if_pos (show (New pfx0 hk).appName = "" from rfl)]
    have happ : (GenerateIdWithAppendPrefix (New pfx0 hk) a "" d counter
        caller rn).2.appName = a := by
      rw [hshape]
      exact hbind
    have hbiz : (GenerateIdWithAppendPrefix (New pfx0 hk) a "" d counter
        caller rn).2.bizType = pfx0 := by
      rw [hshape]
      exact (bindAppName_fields (New pfx0 hk) a).2.2.2.1
    have hne : (GenerateIdWithAppendPrefix (New pfx0 hk) a "" d counter
        caller rn).2.appName ≠ "" := by
      rw [happ]
      exact ha
    simp only [runApps]
    obtain ⟨p1, p2⟩ := runApps_pinned d counter caller rn apps _ hne
    exact ⟨p1.trans happ, p2.trans hbiz⟩

/-- Claim C10, instantiated: the identity bound by the first call "app"
survives a second call with name "other". -/
theorem identity_pinned_case :
    (New "P" "7").bizType = "P" ∧
    ("app" : String) ≠ "" ∧
    (runApps ⟨2024, 1, 2⟩ 1 errCaller 0 ["app", "other"]
      (New "P" "7")).appName = "app" ∧
    (runApps ⟨2024, 1, 2⟩ 1 errCaller 0 ["app", "other"]
      (New "P" "7")).bizType = "P" :=
  ⟨(identity_pinned.1 "P" "7").1, by decide,
   (identity_pinned.2.2.2.2.2.2 ["other"] "app" "P" "7" ⟨2024, 1, 2⟩ 1
     errCaller 0 (by decide)).1,
   (identity_pinned.2.2.2.2.2.2 ["other"] "app" "P" "7" ⟨2024, 1, 2⟩ 1
     errCaller 0 (by decide)).2⟩

end Generator
